import Mathlib

/-!
Verification development for the Eco-sterile pH controller
(`src/Arduino.cpp`): a moving-average voltage filter, a three-point
least-squares calibration, and a hysteresis / burst dosing pump
controller.  All numeric quantities are modelled over `ℚ`; the
`unsigned long` millisecond clock is modelled as `ℕ` with arithmetic
taken modulo `2^32`.
-/

namespace EcoSterile

/-! ## Moving-average filter (`applyMA`, lines 31–35, 62–70, 107) -/

/-- `MA_SIZE` — moving average sample count (line 32). -/
def MA_SIZE : Nat := 10

/-- Filter state: the ring buffer `maBuffer`, write cursor `maIndex`,
fill count `maCount` (lines 33–35). -/
structure MAState where
  maBuffer : List ℚ
  maIndex : Nat
  maCount : Nat
deriving DecidableEq

/-- Filter state after `setup`: buffer zero-initialised (line 107),
cursor and count zero (lines 34–35). -/
def initMA : MAState := ⟨List.replicate MA_SIZE 0, 0, 0⟩

/-- The mutation part of `applyMA` (lines 63–65): overwrite the slot at
the cursor, advance the cursor modulo `MA_SIZE`, saturate the count. -/
def pushMA (s : MAState) (v : ℚ) : MAState :=
  ⟨s.maBuffer.set s.maIndex v,
   (s.maIndex + 1) % MA_SIZE,
   if s.maCount < MA_SIZE then s.maCount + 1 else s.maCount⟩

/-- The return value of `applyMA` (lines 67–69): the sum of
`maBuffer[0] .. maBuffer[maCount-1]` divided by `maCount`. -/
def maOutput (s : MAState) : ℚ :=
  (s.maBuffer.take s.maCount).sum / (s.maCount : ℚ)

/-- `applyMA` (lines 62–70): update the state, return the average. -/
def applyMA (s : MAState) (v : ℚ) : ℚ × MAState :=
  (maOutput (pushMA s v), pushMA s v)

/-- Feed a list of samples through the filter in order. -/
def runMA (s : MAState) (xs : List ℚ) : MAState :=
  xs.foldl pushMA s

/-! ## Calibration (`computeCalibration`, lines 22–29, 73–96) -/

/-- The regression denominator `N * sumx2 - sumx * sumx` (line 87) as a
function of the three `(voltage, pH)` points. -/
def calDenom (p1 p2 p3 : ℚ × ℚ) : ℚ :=
  3 * (p1.1 * p1.1 + p2.1 * p2.1 + p3.1 * p3.1)
    - (p1.1 + p2.1 + p3.1) * (p1.1 + p2.1 + p3.1)

/-- `computeCalibration` (lines 73–96) on three `(voltage, pH)` points:
least-squares slope and intercept, with the `|denom| < 1e-6` fallback
to `(0, 7.0)` (lines 88–91). -/
def computeCalibration (p1 p2 p3 : ℚ × ℚ) : ℚ × ℚ :=
  let sumx := p1.1 + p2.1 + p3.1
  let sumy := p1.2 + p2.2 + p3.2
  let sumxy := p1.1 * p1.2 + p2.1 * p2.2 + p3.1 * p3.2
  let sumx2 := p1.1 * p1.1 + p2.1 * p2.1 + p3.1 * p3.1
  let denom := 3 * sumx2 - sumx * sumx
  if |denom| < 1 / 1000000 then (0, 7)
  else
    let slope := (3 * sumxy - sumx * sumy) / denom
    (slope, (sumy - slope * sumx) / 3)

/-- Calibration point 1 (lines 22–23). -/
def cal_pH1 : ℚ := 4
def cal_V1 : ℚ := 3.60
/-- Calibration point 2 (lines 25–26). -/
def cal_pH2 : ℚ := 7
def cal_V2 : ℚ := (2.957 + 3.055) / 2
/-- Calibration point 3 (lines 28–29). -/
def cal_pH3 : ℚ := 10
def cal_V3 : ℚ := 1.466

/-- The calibration computed at startup (line 110). -/
def startupCalibration : ℚ × ℚ :=
  computeCalibration (cal_V1, cal_pH1) (cal_V2, cal_pH2) (cal_V3, cal_pH3)

/-- `readVoltage` (lines 55–59): raw 10-bit sample to volts. -/
def readVoltage (raw : Nat) : ℚ := (raw : ℚ) * (5 / 1023)

/-! ## pH computation and clamping (lines 132–136) -/

/-- The sequential clamp of lines 135–136: first floor at 0, then cap
at 14. -/
def clampPH (p : ℚ) : ℚ :=
  let p1 := if p < 0 then 0 else p
  if p1 > 14 then 14 else p1

/-- Line 132 followed by the clamp: the pH value the controller uses. -/
def computePH (slope intercept v : ℚ) : ℚ :=
  clampPH (slope * v + intercept)

/-! ## Pump controller (lines 38–48, 142–202) -/

/-- The per-cycle pump decision (the `pumpType` JSON field). -/
inductive Pump where
  | none
  | basic
  | acidic
deriving DecidableEq

/-- The per-cycle action tag (the `action` JSON field). -/
inductive PumpAction where
  | on
  | off
deriving DecidableEq

/-- Controller state across cycles: the two static hysteresis flags
(lines 148–149) and `lastPumpMillis` (line 40). -/
structure CtrlState where
  base_active : Bool
  acid_active : Bool
  lastPumpMillis : Nat
deriving DecidableEq

/-- State at process start: flags false, `lastPumpMillis = 0`. -/
def initState : CtrlState := ⟨false, false, 0⟩

/-- `pumpBurstMs` (line 38). -/
def pumpBurstMs : Nat := 1200

/-- `minGapBetweenBursts` (line 39): 10 s. -/
def minGapBetweenBursts : Nat := 10 * 1000

/-- `unsigned long` subtraction: `(a - b) mod 2^32`. -/
def usub (a b : Nat) : Nat :=
  (a % 4294967296 + 4294967296 - b % 4294967296) % 4294967296

/-- Hysteresis thresholds (lines 44–48). -/
def pH_low_threshold : ℚ := 6.45
def pH_low_exit : ℚ := 6.7
def pH_high_threshold : ℚ := 7.55
def pH_high_exit : ℚ := 7.3

/-- `allowedToRun` (line 145): the minimum-gap guard. -/
def allowedToRun (now : Nat) (s : CtrlState) : Bool :=
  decide (usub now s.lastPumpMillis > minGapBetweenBursts)

/-- Base-flag transition (lines 152–160): exit at `pH ≥ pH_low_exit`
when active; enter at `pH ≤ pH_low_threshold` when idle and allowed. -/
def baseTransition (pH : ℚ) (allowed : Bool) (b : Bool) : Bool :=
  if b then
    if pH ≥ pH_low_exit then false else b
  else
    if pH ≤ pH_low_threshold ∧ allowed = true then true else b

/-- Acid-flag transition (lines 162–170), symmetric to the base one. -/
def acidTransition (pH : ℚ) (allowed : Bool) (a : Bool) : Bool :=
  if a then
    if pH ≤ pH_high_exit then false else a
  else
    if pH ≥ pH_high_threshold ∧ allowed = true then true else a

/-- Conflict resolution (lines 172–179): if both flags are set, keep
the one with the larger deviation from its target centre; `devBase ≥
devAcid` clears acid (ties keep base). -/
def arbitrate (pH : ℚ) (b a : Bool) : Bool × Bool :=
  if b = true ∧ a = true then
    if |pH - 6.5| ≥ |pH - 7.5| then (b, false) else (false, a)
  else (b, a)

/-- The burst-firing step (lines 181–202): a set base flag fires the
basic pump, records `lastPumpMillis = now` and clears itself; otherwise
a set acid flag does the same for the acidic pump; otherwise no pump
runs and the state is unchanged. -/
def fire (now : Nat) (b a : Bool) (last : Nat) :
    (Pump × PumpAction) × CtrlState :=
  if b = true then ((Pump.basic, PumpAction.on), ⟨false, a, now⟩)
  else if a = true then ((Pump.acidic, PumpAction.on), ⟨b, false, now⟩)
  else ((Pump.none, PumpAction.off), ⟨b, a, last⟩)

/-- The two flags after the transition and arbitration phases of a
cycle (lines 142–179). -/
def arbitratedFlags (pH : ℚ) (now : Nat) (s : CtrlState) : Bool × Bool :=
  arbitrate pH
    (baseTransition pH (allowedToRun now s) s.base_active)
    (acidTransition pH (allowedToRun now s) s.acid_active)

/-- One full decision cycle of `loop` (lines 142–202), from the
filtered pH value: transitions, arbitration, burst firing. -/
def loopStep (pH : ℚ) (now : Nat) (s : CtrlState) :
    (Pump × PumpAction) × CtrlState :=
  fire now (arbitratedFlags pH now s).1 (arbitratedFlags pH now s).2
    s.lastPumpMillis

/-- One full cycle of `loop` from the filtered voltage (lines 131–202):
the pH fed to the controller is the clamped calibrated value. -/
def loopCycle (slope intercept v : ℚ) (now : Nat) (s : CtrlState) :
    (Pump × PumpAction) × CtrlState :=
  loopStep (computePH slope intercept v) now s

/-- Run a sequence of cycles, returning the final controller state. -/
def runCtrl (inputs : List (ℚ × Nat)) (s : CtrlState) : CtrlState :=
  inputs.foldl (fun st i => (loopStep i.1 i.2 st).2) s

/-- Run a sequence of cycles, returning the per-cycle pump outputs. -/
def runTrace (inputs : List (ℚ × Nat)) (s : CtrlState) :
    List (Pump × PumpAction) :=
  match inputs with
  | [] => []
  | i :: rest =>
      (loopStep i.1 i.2 s).1 :: runTrace rest (loopStep i.1 i.2 s).2

end EcoSterile

namespace EcoSterile

/-! ## Helper lemmas -/

/-- Arbitration never leaves both flags set, whatever the input. -/
theorem arbitrate_not_both (pH : ℚ) (b a : Bool) :
    ((arbitrate pH b a).1 && (arbitrate pH b a).2) = false := by
  cases b <;> cases a <;> simp [arbitrate] <;> split_ifs <;> simp

/-- If the flags are not both set, arbitration changes nothing. -/
theorem arbitrate_no_conflict (pH : ℚ) (b a : Bool) (h : (b && a) = false) :
    arbitrate pH b a = (b, a) := by
  cases b <;> cases a <;> simp_all [arbitrate]

/-- After the firing step, both flags are clear (provided they were not
both set going in, which arbitration guarantees). -/
theorem fire_flags (now : Nat) (b a : Bool) (last : Nat)
    (h : (b && a) = false) :
    ((fire now b a last).2).base_active = false ∧
      ((fire now b a last).2).acid_active = false := by
  cases b <;> cases a <;> simp_all [fire]

/-- Every cycle ends with both flags clear, from any starting state. -/
theorem loopStep_flags (pH : ℚ) (now : Nat) (s : CtrlState) :
    ((loopStep pH now s).2).base_active = false ∧
      ((loopStep pH now s).2).acid_active = false := by
  exact fire_flags now _ _ _
    (arbitrate_not_both pH
      (baseTransition pH (allowedToRun now s) s.base_active)
      (acidTransition pH (allowedToRun now s) s.acid_active))

/-- Starting a cycle with both flags clear, the entry transitions can
never set both: the entry thresholds 6.45 and 7.55 are disjoint. -/
theorem entry_flags_not_both (pH : ℚ) (g : Bool) :
    (baseTransition pH g false && acidTransition pH g false) = false := by
  by_cases h1 : pH ≤ pH_low_threshold ∧ g = true
  · have h3 : ¬ pH ≥ pH_high_threshold := by
      have hle := h1.1
      rw [pH_low_threshold] at hle
      rw [pH_high_threshold]
      linarith
    simp [baseTransition, acidTransition, h1, h3]
  · simp [baseTransition, acidTransition, h1]

/-- Runs started with both flags clear keep them clear. -/
theorem runCtrl_flags (inputs : List (ℚ × Nat)) :
    ∀ s : CtrlState, s.base_active = false → s.acid_active = false →
      (runCtrl inputs s).base_active = false ∧
        (runCtrl inputs s).acid_active = false := by
  induction inputs with
  | nil => exact fun s hb ha => ⟨hb, ha⟩
  | cons i rest ih =>
      intro s hb ha
      have h := loopStep_flags i.1 i.2 s
      exact ih _ h.1 h.2

/-- The sequential clamp of lines 135–136 is the clamp to `[0, 14]`. -/
theorem clampPH_eq (p : ℚ) : clampPH p = max 0 (min 14 p) := by
  unfold clampPH
  split_ifs with h1 h2 h3 <;>
    simp [max_def, min_def] <;> split_ifs <;> linarith

end EcoSterile

namespace EcoSterile

/-- Setting the slot just past a prefix writes the head of the tail. -/
theorem set_append_len {α : Type} (l₁ l₂ : List α) (a v : α) :
    (l₁ ++ a :: l₂).set l₁.length v = l₁ ++ v :: l₂ := by
  induction l₁ with
  | nil => rfl
  | cons x xs ih => simp [List.set, ih]

/-- Rewriting a replicated list with the same value changes nothing. -/
theorem set_replicate_self {α : Type} (a : α) :
    ∀ n i : Nat, (List.replicate n a).set i a = List.replicate n a := by
  intro n
  induction n with
  | zero => intro i; rfl
  | succ m ih =>
      intro i
      cases i with
      | zero => simp [List.replicate_succ, List.set]
      | succ j => simp [List.replicate_succ, List.set, ih]

/-- State of the filter after at most `MA_SIZE` pushes from empty: the
pushed samples sit at the front of the buffer, the rest is still zero,
and the count equals the number of pushes. -/
theorem runMA_init_eq (xs : List ℚ) (h : xs.length ≤ MA_SIZE) :
    runMA initMA xs =
      ⟨xs ++ List.replicate (MA_SIZE - xs.length) 0,
       xs.length % MA_SIZE, xs.length⟩ := by
  induction xs using List.reverseRecOn with
  | nil => rfl
  | append_singleton xs v ih =>
      have hlt : xs.length < MA_SIZE := by
        have := h
        simp only [List.length_append, List.length_singleton] at this
        omega
      have h1 : runMA initMA (xs ++ [v]) = pushMA (runMA initMA xs) v := by
        simp [runMA, List.foldl_append]
      rw [h1, ih (le_of_lt hlt)]
      unfold pushMA
      simp only
      have hmod : xs.length % MA_SIZE = xs.length := Nat.mod_eq_of_lt hlt
      have hrep : List.replicate (MA_SIZE - xs.length) (0 : ℚ) =
          0 :: List.replicate (MA_SIZE - (xs.length + 1)) 0 := by
        rw [← List.replicate_succ]
        congr 1
        omega
      rw [hmod, hrep, set_append_len, List.append_cons]
      simp [if_pos hlt]

/-- After the buffer is saturated with a constant, further pushes of the
same constant keep it saturated. -/
theorem runMA_const_saturated (v : ℚ) :
    ∀ (n i : Nat), i < MA_SIZE →
      ∃ j : Nat, j < MA_SIZE ∧
        runMA ⟨List.replicate MA_SIZE v, i, MA_SIZE⟩ (List.replicate n v) =
          ⟨List.replicate MA_SIZE v, j, MA_SIZE⟩ := by
  intro n
  induction n with
  | zero => intro i hi; exact ⟨i, hi, rfl⟩
  | succ m ih =>
      intro i hi
      have hpush : pushMA ⟨List.replicate MA_SIZE v, i, MA_SIZE⟩ v =
          ⟨List.replicate MA_SIZE v, (i + 1) % MA_SIZE, MA_SIZE⟩ := by
        unfold pushMA
        simp [set_replicate_self]
      have hstep : runMA ⟨List.replicate MA_SIZE v, i, MA_SIZE⟩
            (List.replicate (m + 1) v) =
          runMA ⟨List.replicate MA_SIZE v, (i + 1) % MA_SIZE, MA_SIZE⟩
            (List.replicate m v) := by
        rw [List.replicate_succ]
        show runMA (pushMA _ v) _ = _
        rw [hpush]
      rw [hstep]
      exact ih ((i + 1) % MA_SIZE) (Nat.mod_lt _ (by norm_num [MA_SIZE]))

/-- Within the first ten seconds the gap guard is closed: starting from
the boot state, a cycle at time `t ≤ minGapBetweenBursts` runs no pump
and leaves the state untouched. -/
theorem loopStep_early (pH : ℚ) (t : Nat) (h : t ≤ minGapBetweenBursts) :
    loopStep pH t initState = ((Pump.none, PumpAction.off), initState) := by
  have hg : allowedToRun t initState = false := by
    simp only [allowedToRun, usub, initState, minGapBetweenBursts,
      decide_eq_false_iff_not, gt_iff_lt, not_lt]
    rw [minGapBetweenBursts] at h
    omega
  have hb : baseTransition pH (allowedToRun t initState)
      initState.base_active = false := by
    rw [hg]
    simp [baseTransition, initState]
  have ha : acidTransition pH (allowedToRun t initState)
      initState.acid_active = false := by
    rw [hg]
    simp [acidTransition, initState]
  have hflags : arbitratedFlags pH t initState = (false, false) := by
    unfold arbitratedFlags
    rw [hb, ha]
    simp [arbitrate]
  unfold loopStep
  rw [hflags]
  simp [fire, initState]

end EcoSterile

namespace EcoSterile

/-- Claim C1: a flag that is currently false is set only when the gap
guard `(now − lastPumpMillis) > minGapBetweenBursts` holds — when the
guard fails neither low pH sets `base_active` nor high pH sets
`acid_active` — while clearing an already-true flag never depends on
the guard. -/
theorem entry_requires_gap_guard (pH : ℚ) (now : Nat) (s : CtrlState)
    (h : usub now s.lastPumpMillis ≤ minGapBetweenBursts) :
    baseTransition pH (allowedToRun now s) false = false ∧
    acidTransition pH (allowedToRun now s) false = false ∧
    (∀ g g' : Bool, baseTransition pH g true = baseTransition pH g' true) ∧
    (∀ g g' : Bool, acidTransition pH g true = acidTransition pH g' true) := by
  have hg : allowedToRun now s = false := by
    simp only [allowedToRun, decide_eq_false_iff_not, gt_iff_lt, not_lt]
    exact h
  refine ⟨?_, ?_, ?_, ?_⟩
  · rw [hg]; simp [baseTransition]
  · rw [hg]; simp [acidTransition]
  · intro g g'; simp [baseTransition]
  · intro g g'; simp [acidTransition]

/-- Witness for C1 at `now = 9000` from the boot state. -/
theorem entry_requires_gap_guard_inst :
    usub 9000 initState.lastPumpMillis ≤ minGapBetweenBursts ∧
    baseTransition 6 (allowedToRun 9000 initState) false = false :=
  ⟨by decide, (entry_requires_gap_guard 6 9000 initState (by decide)).1⟩

/-- Claim C2: arbitration leaves at most one flag set; with both flags
set it keeps the one whose deviation from its target centre is larger,
ties (`devBase ≥ devAcid`) keeping base; at pH 6.9 with both set, acid
is kept and base cleared. -/
theorem arbitration_mutual_exclusion (pH : ℚ) (b a : Bool) :
    ((arbitrate pH b a).1 && (arbitrate pH b a).2) = false ∧
    arbitrate pH true true =
      (if |pH - 6.5| ≥ |pH - 7.5| then (true, false) else (false, true)) ∧
    arbitrate (6.9 : ℚ) true true = (false, true) := by
  refine ⟨arbitrate_not_both pH b a, ?_, ?_⟩
  · simp [arbitrate]
  · norm_num [arbitrate, abs_of_nonneg, abs_of_nonpos]

/-- Claim C4: when a cycle fires a dose (base flag set after
arbitration, or else acid flag set), the cycle records
`lastPumpMillis = now`, emits the firing pump with action on, and ends
with the firing flag cleared. -/
theorem dose_fire_postcondition (pH : ℚ) (now : Nat) (s : CtrlState) :
    ((arbitratedFlags pH now s).1 = true →
      (loopStep pH now s).1 = (Pump.basic, PumpAction.on) ∧
      ((loopStep pH now s).2).lastPumpMillis = now ∧
      ((loopStep pH now s).2).base_active = false) ∧
    ((arbitratedFlags pH now s).1 = false →
      (arbitratedFlags pH now s).2 = true →
      (loopStep pH now s).1 = (Pump.acidic, PumpAction.on) ∧
      ((loopStep pH now s).2).lastPumpMillis = now ∧
      ((loopStep pH now s).2).acid_active = false) := by
  constructor
  · intro h1
    simp [loopStep, fire, h1]
  · intro h1 h2
    simp [loopStep, fire, h1, h2]

/-- Witness for C4: a base burst at pH 6, `now = 20000`. -/
theorem dose_fire_postcondition_inst :
    (loopStep 6 20000 initState).1 = (Pump.basic, PumpAction.on) ∧
    ((loopStep 6 20000 initState).2).lastPumpMillis = 20000 ∧
    ((loopStep 6 20000 initState).2).base_active = false :=
  (dose_fire_postcondition 6 20000 initState).1 (by
    norm_num [arbitratedFlags, arbitrate, baseTransition, acidTransition,
      allowedToRun, usub, initState, minGapBetweenBursts, pH_low_threshold,
      pH_high_threshold])

/-- Claim C8: the controller's pH is the linear calibration value
clamped to `[0, 14]`, unconditionally, with no error path: `loopCycle`
always feeds `computePH` to the decision logic. -/
theorem pH_clamp_unconditional (slope intercept v : ℚ) (now : Nat)
    (s : CtrlState) :
    computePH slope intercept v = max 0 (min 14 (slope * v + intercept)) ∧
    0 ≤ computePH slope intercept v ∧
    computePH slope intercept v ≤ 14 ∧
    loopCycle slope intercept v now s =
      loopStep (computePH slope intercept v) now s := by
  have h : computePH slope intercept v =
      max 0 (min 14 (slope * v + intercept)) :=
    clampPH_eq (slope * v + intercept)
  refine ⟨h, ?_, ?_, rfl⟩
  · rw [h]; exact le_max_left _ _
  · rw [h]; exact max_le (by norm_num) (min_le_left _ _)

/-- Claim C9: in every reachable state both flags are false at the
start of a cycle, and from false flags the entry transitions can never
set both, so the conflict branch is the identity (never executed); the
exit branches likewise test a flag that is always false. -/
theorem flags_false_every_cycle (inputs : List (ℚ × Nat)) (pH : ℚ)
    (g : Bool) :
    (runCtrl inputs initState).base_active = false ∧
    (runCtrl inputs initState).acid_active = false ∧
    (baseTransition pH g false && acidTransition pH g false) = false ∧
    arbitrate pH (baseTransition pH g false) (acidTransition pH g false) =
      (baseTransition pH g false, acidTransition pH g false) := by
  obtain ⟨h1, h2⟩ := runCtrl_flags inputs initState rfl rfl
  exact ⟨h1, h2, entry_flags_not_both pH g,
    arbitrate_no_conflict pH _ _ (entry_flags_not_both pH g)⟩

/-- Claim C10: with `lastPumpMillis` starting at 0 and the strict gap
guard, no cycle within the first `minGapBetweenBursts` after start can
fire a dose, whatever pH is measured. -/
theorem no_dose_before_first_gap (inputs : List (ℚ × Nat))
    (h : ∀ i ∈ inputs, i.2 ≤ minGapBetweenBursts) :
    runTrace inputs initState =
      List.replicate inputs.length (Pump.none, PumpAction.off) ∧
    runCtrl inputs initState = initState := by
  induction inputs with
  | nil => exact ⟨rfl, rfl⟩
  | cons i rest ih =>
      have hi : i.2 ≤ minGapBetweenBursts := h i (List.mem_cons_self i rest)
      have hstep := loopStep_early i.1 i.2 hi
      obtain ⟨ihT, ihC⟩ := ih (fun j hj => h j (List.mem_cons_of_mem i hj))
      constructor
      · show (loopStep i.1 i.2 initState).1 ::
            runTrace rest (loopStep i.1 i.2 initState).2 = _
        rw [hstep]
        simp [ihT, List.replicate_succ]
      · show runCtrl rest (loopStep i.1 i.2 initState).2 = initState
        rw [hstep]
        exact ihC

/-- Witness for C10: three early cycles, one exactly at the gap bound,
all yield no pump. -/
theorem no_dose_before_first_gap_inst :
    runTrace [((3 : ℚ), 500), ((14 : ℚ), 9000), ((2 : ℚ), 10000)]
        initState =
      List.replicate 3 (Pump.none, PumpAction.off) ∧
    runCtrl [((3 : ℚ), 500), ((14 : ℚ), 9000), ((2 : ℚ), 10000)]
        initState = initState :=
  no_dose_before_first_gap _ (by decide)

end EcoSterile

namespace EcoSterile

/-- Counterexample to claim C3: at pH 6 with the gap guard open the
base flag does become true during the cycle, but the burst clears it in
the same cycle, so it is already false entering the next cycle — and a
second cycle still at pH 6 (below the 6.7 exit) also ends with the flag
false.  The flag does not remain true until a cycle sees pH ≥ 6.7. -/
theorem base_latching_cex :
    baseTransition 6 (allowedToRun 20000 initState)
      initState.base_active = true ∧
    (6 : ℚ) < pH_low_exit ∧
    ((loopStep 6 20000 initState).2).base_active = false ∧
    ((loopStep 6 22000
      ((loopStep 6 20000 initState).2)).2).base_active = false := by
  have h1 : (loopStep 6 20000 initState).2 = ⟨false, false, 20000⟩ := by
    norm_num [loopStep, arbitratedFlags, arbitrate, baseTransition,
      acidTransition, fire, allowedToRun, usub, minGapBetweenBursts,
      initState, pH_low_threshold, pH_low_exit, pH_high_threshold,
      pH_high_exit]
  refine ⟨?_, ?_, ?_, ?_⟩
  · norm_num [baseTransition, allowedToRun, usub, minGapBetweenBursts,
      initState, pH_low_threshold]
  · norm_num [pH_low_exit]
  · rw [h1]
  · rw [h1]
    norm_num [loopStep, arbitratedFlags, arbitrate, baseTransition,
      acidTransition, fire, allowedToRun, usub, minGapBetweenBursts,
      pH_low_threshold, pH_high_threshold]

/-- Claim C3 as amended: if pH is at or below 6.45 in a cycle whose gap
guard allows dosing and both flags are clear, the base flag becomes
true within that cycle and the basic pump fires — but the flag is
cleared again by the end of the same cycle (one-shot burst), so it does
not persist into subsequent cycles. -/
theorem base_burst_one_shot (pH : ℚ) (now : Nat) (s : CtrlState)
    (hb : s.base_active = false) (ha : s.acid_active = false)
    (hg : allowedToRun now s = true) (hpH : pH ≤ pH_low_threshold) :
    baseTransition pH (allowedToRun now s) s.base_active = true ∧
    (loopStep pH now s).1 = (Pump.basic, PumpAction.on) ∧
    ((loopStep pH now s).2).base_active = false ∧
    ((loopStep pH now s).2).lastPumpMillis = now := by
  have hb1 : baseTransition pH (allowedToRun now s) s.base_active
      = true := by
    rw [hb, hg]
    simp [baseTransition, hpH]
  have ha1 : acidTransition pH (allowedToRun now s) s.acid_active
      = false := by
    rw [ha]
    have hn : ¬ pH ≥ pH_high_threshold := by
      rw [pH_high_threshold]
      rw [pH_low_threshold] at hpH
      linarith
    simp [acidTransition, hn]
  have hflags : arbitratedFlags pH now s = (true, false) := by
    unfold arbitratedFlags
    rw [hb1, ha1]
    simp [arbitrate]
  refine ⟨hb1, ?_, ?_, ?_⟩ <;>
    · unfold loopStep
      rw [hflags]
      simp [fire]

/-- Witness for the amended C3 at pH 6.2, `now = 50000`. -/
theorem base_burst_one_shot_inst :
    baseTransition (6.2 : ℚ) (allowedToRun 50000 initState)
      initState.base_active = true ∧
    (loopStep (6.2 : ℚ) 50000 initState).1 =
      (Pump.basic, PumpAction.on) ∧
    ((loopStep (6.2 : ℚ) 50000 initState).2).base_active = false ∧
    ((loopStep (6.2 : ℚ) 50000 initState).2).lastPumpMillis = 50000 :=
  base_burst_one_shot 6.2 50000 initState rfl rfl (by decide)
    (by norm_num [pH_low_threshold])

/-- Claim C5: the regression guards its denominator — any triple with
`|3·Sxx − Sx²| < 1e-6` (in particular three equal voltages) falls back
to slope 0, intercept 7; otherwise the least-squares formulas are used
verbatim. -/
theorem calibration_degenerate_fallback (p1 p2 p3 : ℚ × ℚ) :
    (|calDenom p1 p2 p3| < 1 / 1000000 →
      computeCalibration p1 p2 p3 = (0, 7)) ∧
    (p1.1 = p2.1 ∧ p2.1 = p3.1 →
      computeCalibration p1 p2 p3 = (0, 7)) ∧
    (1 / 1000000 ≤ |calDenom p1 p2 p3| →
      computeCalibration p1 p2 p3 =
        ((3 * (p1.1 * p1.2 + p2.1 * p2.2 + p3.1 * p3.2)
            - (p1.1 + p2.1 + p3.1) * (p1.2 + p2.2 + p3.2))
          / calDenom p1 p2 p3,
         ((p1.2 + p2.2 + p3.2)
            - (3 * (p1.1 * p1.2 + p2.1 * p2.2 + p3.1 * p3.2)
                - (p1.1 + p2.1 + p3.1) * (p1.2 + p2.2 + p3.2))
              / calDenom p1 p2 p3 * (p1.1 + p2.1 + p3.1)) / 3)) := by
  refine ⟨?_, ?_, ?_⟩
  · intro h
    simp only [calDenom] at h
    simp only [computeCalibration]
    rw [if_pos h]
  · intro h
    have h0 : calDenom p1 p2 p3 = 0 := by
      rw [calDenom, h.1, h.2]
      ring
    have hlt : |calDenom p1 p2 p3| < 1 / 1000000 := by
      rw [h0]
      norm_num
    simp only [calDenom] at hlt
    simp only [computeCalibration]
    rw [if_pos hlt]
  · intro hd
    have hnlt : ¬ |calDenom p1 p2 p3| < 1 / 1000000 := not_lt.mpr hd
    simp only [calDenom] at hnlt
    simp only [computeCalibration, calDenom]
    rw [if_neg hnlt]

/-- Witness for C5: three equal voltages fall back to `(0, 7)`. -/
theorem calibration_degenerate_fallback_inst :
    computeCalibration (1, 4) (1, 7) (1, 10) = (0, 7) :=
  (calibration_degenerate_fallback (1, 4) (1, 7) (1, 10)).2.1 ⟨rfl, rfl⟩

/-- Claim C6: from an empty filter, after `k < MA_SIZE` pushes the
output is the mean of exactly the pushed samples, and after
`MA_SIZE` or more pushes of a constant the output is that constant. -/
theorem filter_mean_exact (xs : List ℚ) (v : ℚ) (m : Nat)
    (hk : xs.length < MA_SIZE) (hm : MA_SIZE ≤ m) :
    maOutput (runMA initMA xs) = xs.sum / (xs.length : ℚ) ∧
    maOutput (runMA initMA (List.replicate m v)) = v := by
  constructor
  · rw [runMA_init_eq xs (le_of_lt hk)]
    unfold maOutput
    simp only
    rw [List.take_left]
  · have hsplit : List.replicate m v =
        List.replicate MA_SIZE v ++ List.replicate (m - MA_SIZE) v := by
      rw [← List.replicate_add]
      congr 1
      omega
    rw [hsplit]
    have happ : runMA initMA
          (List.replicate MA_SIZE v ++ List.replicate (m - MA_SIZE) v) =
        runMA (runMA initMA (List.replicate MA_SIZE v))
          (List.replicate (m - MA_SIZE) v) := by
      unfold runMA
      rw [List.foldl_append]
    have hfull : runMA initMA (List.replicate MA_SIZE v) =
        ⟨List.replicate MA_SIZE v, 0, MA_SIZE⟩ := by
      rw [runMA_init_eq _ (by simp)]
      simp
    rw [happ, hfull]
    obtain ⟨j, hj, hrun⟩ :=
      runMA_const_saturated v (m - MA_SIZE) 0 (by norm_num [MA_SIZE])
    rw [hrun]
    unfold maOutput
    simp only
    rw [List.take_replicate, min_self, List.sum_replicate, nsmul_eq_mul]
    exact mul_div_cancel_left₀ v (by norm_num [MA_SIZE])

/-- Witness for C6: two pushes average to 3/2; twelve pushes of the
constant 5 return 5. -/
theorem filter_mean_exact_inst :
    maOutput (runMA initMA [1, 2]) = (3 / 2 : ℚ) ∧
    maOutput (runMA initMA (List.replicate 12 (5 : ℚ))) = 5 := by
  have h := filter_mean_exact [1, 2] 5 12 (by norm_num [MA_SIZE])
    (by norm_num [MA_SIZE])
  refine ⟨?_, h.2⟩
  have h1 := h.1
  norm_num at h1
  exact h1

/-- Counterexample to claim C7: the points (0,0), (1,0), (2,1) are not
collinear, the regression denominator passes the guard, yet the fitted
line misses the first point by 1/6 — an exact fit through three
non-collinear points is impossible, so the claim fails as stated. -/
theorem lsq_exact_fit_cex :
    (¬ ∃ a b : ℚ, (0 : ℚ) = a * 0 + b ∧ (0 : ℚ) = a * 1 + b ∧
        (1 : ℚ) = a * 2 + b) ∧
    computeCalibration (0, 0) (1, 0) (2, 1) = (1/2, -1/6) ∧
    |(0 : ℚ) - ((computeCalibration (0, 0) (1, 0) (2, 1)).1 * 0
        + (computeCalibration (0, 0) (1, 0) (2, 1)).2)| = 1/6 := by
  have hc : computeCalibration (0, 0) (1, 0) (2, 1) = (1/2, -1/6) := by
    norm_num [computeCalibration]
  refine ⟨?_, hc, ?_⟩
  · rintro ⟨a, b, hA, hB, hC⟩
    norm_num at hA hB hC
    linarith
  · rw [hc]
    norm_num

/-- Claim C7 as amended: for three collinear calibration points
(`pH_i = a·V_i + b`) whose denominator passes the `1e-6` guard, the
fitted line reproduces all three points exactly. -/
theorem lsq_exact_fit_collinear (p1 p2 p3 : ℚ × ℚ) (a b : ℚ)
    (h1 : p1.2 = a * p1.1 + b) (h2 : p2.2 = a * p2.1 + b)
    (h3 : p3.2 = a * p3.1 + b)
    (hd : 1 / 1000000 ≤ |calDenom p1 p2 p3|) :
    (computeCalibration p1 p2 p3).1 * p1.1
      + (computeCalibration p1 p2 p3).2 = p1.2 ∧
    (computeCalibration p1 p2 p3).1 * p2.1
      + (computeCalibration p1 p2 p3).2 = p2.2 ∧
    (computeCalibration p1 p2 p3).1 * p3.1
      + (computeCalibration p1 p2 p3).2 = p3.2 := by
  have hne : calDenom p1 p2 p3 ≠ 0 := by
    intro h0
    rw [h0] at hd
    norm_num at hd
  have hnlt : ¬ |calDenom p1 p2 p3| < 1 / 1000000 := not_lt.mpr hd
  have hCC : computeCalibration p1 p2 p3 =
      ((3 * (p1.1 * p1.2 + p2.1 * p2.2 + p3.1 * p3.2)
          - (p1.1 + p2.1 + p3.1) * (p1.2 + p2.2 + p3.2))
        / calDenom p1 p2 p3,
       ((p1.2 + p2.2 + p3.2)
          - (3 * (p1.1 * p1.2 + p2.1 * p2.2 + p3.1 * p3.2)
              - (p1.1 + p2.1 + p3.1) * (p1.2 + p2.2 + p3.2))
            / calDenom p1 p2 p3 * (p1.1 + p2.1 + p3.1)) / 3) := by
    simp only [calDenom] at hnlt
    simp only [computeCalibration, calDenom]
    rw [if_neg hnlt]
  have hnum : 3 * (p1.1 * p1.2 + p2.1 * p2.2 + p3.1 * p3.2)
      - (p1.1 + p2.1 + p3.1) * (p1.2 + p2.2 + p3.2)
      = a * calDenom p1 p2 p3 := by
    simp only [calDenom]
    rw [h1, h2, h3]
    ring
  have hslope : (computeCalibration p1 p2 p3).1 = a := by
    rw [hCC]
    simp only
    rw [hnum]
    exact mul_div_cancel_right₀ a hne
  have hicept : (computeCalibration p1 p2 p3).2 = b := by
    rw [hCC]
    simp only
    rw [hnum, mul_div_cancel_right₀ a hne, h1, h2, h3]
    ring
  rw [hslope, hicept]
  exact ⟨h1.symm, h2.symm, h3.symm⟩

/-- Witness for the amended C7 on the collinear points (0,1), (1,2),
(2,3) lying on `pH = V + 1`. -/
theorem lsq_exact_fit_collinear_inst :
    (computeCalibration (0, 1) (1, 2) (2, 3)).1 * (0 : ℚ)
      + (computeCalibration (0, 1) (1, 2) (2, 3)).2 = 1 :=
  (lsq_exact_fit_collinear (0, 1) (1, 2) (2, 3) 1 1 (by norm_num)
    (by norm_num) (by norm_num) (by norm_num [calDenom])).1

end EcoSterile
